import Mathlib

/-!
Verification of the data/domain layer of a social-network service
(file src/weibo/app/models.py): role-based permissions, follow graph,
feed resolution, confirmation tokens, and the write-through audit
mirror ("blockchain" key-value ledger).

The Python source is shallowly embedded: database tables become lists
of records, machine-independent integers become Nat, and the external
boundaries that the repository consumes but does not define (werkzeug
password hashing, itsdangerous signed tokens, the blockchain put/delete
ledger) are modelled from the specification of those boundaries.
-/

/-! ## MD5 (used by User.__init__ and User.gravatar via hashlib.md5) -/

namespace MD5

/-- Truncate to a 32-bit word, as Python-level MD5 arithmetic does. -/
def u32 (x : Nat) : Nat := x % 4294967296

/-- Rotate a 32-bit word left by `n` bits. -/
def rotl (x n : Nat) : Nat := u32 (x <<< n) ||| (x >>> (32 - n))

/-- Per-round shift amounts of MD5. -/
def sTab : List Nat :=
  [7, 12, 17, 22, 7, 12, 17, 22, 7, 12, 17, 22, 7, 12, 17, 22,
   5, 9, 14, 20, 5, 9, 14, 20, 5, 9, 14, 20, 5, 9, 14, 20,
   4, 11, 16, 23, 4, 11, 16, 23, 4, 11, 16, 23, 4, 11, 16, 23,
   6, 10, 15, 21, 6, 10, 15, 21, 6, 10, 15, 21, 6, 10, 15, 21]

/-- Per-round additive constants of MD5 (floor of 2^32 times abs (sin (i+1))). -/
def kTab : List Nat :=
  [0xd76aa478, 0xe8c7b756, 0x242070db, 0xc1bdceee,
   0xf57c0faf, 0x4787c62a, 0xa8304613, 0xfd469501,
   0x698098d8, 0x8b44f7af, 0xffff5bb1, 0x895cd7be,
   0x6b901122, 0xfd987193, 0xa679438e, 0x49b40821,
   0xf61e2562, 0xc040b340, 0x265e5a51, 0xe9b6c7aa,
   0xd62f105d, 0x02441453, 0xd8a1e681, 0xe7d3fbc8,
   0x21e1cde6, 0xc33707d6, 0xf4d50d87, 0x455a14ed,
   0xa9e3e905, 0xfcefa3f8, 0x676f02d9, 0x8d2a4c8a,
   0xfffa3942, 0x8771f681, 0x6d9d6122, 0xfde5380c,
   0xa4beea44, 0x4bdecfa9, 0xf6bb4b60, 0xbebfbc70,
   0x289b7ec6, 0xeaa127fa, 0xd4ef3085, 0x04881d05,
   0xd9d4d039, 0xe6db99e5, 0x1fa27cf8, 0xc4ac5665,
   0xf4292244, 0x432aff97, 0xab9423a7, 0xfc93a039,
   0x655b59c3, 0x8f0ccc92, 0xffeff47d, 0x85845dd1,
   0x6fa87e4f, 0xfe2ce6e0, 0xa3014314, 0x4e0811a1,
   0xf7537e82, 0xbd3af235, 0x2ad7d2bb, 0xeb86d391]

/-- Nonlinear mixing function of round `i` on words `b c d`. -/
def mix (i b c d : Nat) : Nat :=
  if i < 16 then (b &&& c) ||| ((0xffffffff ^^^ b) &&& d)
  else if i < 32 then (d &&& b) ||| ((0xffffffff ^^^ d) &&& c)
  else if i < 48 then b ^^^ c ^^^ d
  else c ^^^ (b ||| (0xffffffff ^^^ d))

/-- Message-word index consumed by round `i`. -/
def gIdx (i : Nat) : Nat :=
  if i < 16 then i
  else if i < 32 then (5 * i + 1) % 16
  else if i < 48 then (3 * i + 5) % 16
  else (7 * i) % 16

/-- Little-endian 32-bit word number `j` of a 64-byte block. -/
def word (block : List Nat) (j : Nat) : Nat :=
  block.getD (4 * j) 0 + 256 * block.getD (4 * j + 1) 0 +
    65536 * block.getD (4 * j + 2) 0 + 16777216 * block.getD (4 * j + 3) 0

/-- One MD5 round: rotate the state quadruple, feeding in round `i`. -/
def roundStep (block : List Nat) (st : Nat × Nat × Nat × Nat) (i : Nat) :
    Nat × Nat × Nat × Nat :=
  let a := st.1
  let b := st.2.1
  let c := st.2.2.1
  let d := st.2.2.2
  let f := u32 (mix i b c d + a + kTab.getD i 0 + word block (gIdx i))
  (d, u32 (b + rotl f (sTab.getD i 0)), b, c)

/-- Process one 64-byte block, adding the round output into the chaining state. -/
def processBlock (st : Nat × Nat × Nat × Nat) (block : List Nat) :
    Nat × Nat × Nat × Nat :=
  let r := (List.range 64).foldl (roundStep block) st
  (u32 (st.1 + r.1), u32 (st.2.1 + r.2.1), u32 (st.2.2.1 + r.2.2.1),
   u32 (st.2.2.2 + r.2.2.2))

/-- MD5 padding: a 0x80 byte, zeros to 56 mod 64, then the 64-bit bit length. -/
def padBytes (msg : List Nat) : List Nat :=
  let len := msg.length
  let z := (119 - len % 64) % 64
  msg ++ [0x80] ++ List.replicate z 0 ++
    (List.range 8).map (fun i => (8 * len) >>> (8 * i) % 256)

/-- Split a byte list into 64-byte blocks (fuel-based structural recursion). -/
def chunksGo : Nat → List Nat → List (List Nat)
  | 0, _ => []
  | _, [] => []
  | fuel + 1, l => l.take 64 :: chunksGo fuel (l.drop 64)

/-- Split a byte list into 64-byte blocks. -/
def chunks (l : List Nat) : List (List Nat) := chunksGo l.length l

/-- Serialize one 32-bit word to four little-endian bytes. -/
def wordBytes (w : Nat) : List Nat :=
  [w % 256, w / 256 % 256, w / 65536 % 256, w / 16777216 % 256]

/-- The 16-byte MD5 digest of a byte string. -/
def md5bytes (msg : List Nat) : List Nat :=
  let r := (chunks (padBytes msg)).foldl processBlock
    (0x67452301, 0xefcdab89, 0x98badcfe, 0x10325476)
  wordBytes r.1 ++ wordBytes r.2.1 ++ wordBytes r.2.2.1 ++ wordBytes r.2.2.2

/-- Two lowercase hex characters of a byte, as in hexdigest(). -/
def byteHex (b : Nat) : List Char :=
  [Nat.digitChar (b / 16), Nat.digitChar (b % 16)]

/-- The lowercase hex digest of a byte string, hashlib.md5(...).hexdigest(). -/
def md5hex (msg : List Nat) : String :=
  String.mk ((md5bytes msg).flatMap byteHex)

end MD5

/-- UTF-8 encoding of one character, as in str.encode in Python. -/
def utf8Char (c : Char) : List Nat :=
  let n := c.toNat
  if n < 0x80 then [n]
  else if n < 0x800 then [0xc0 ||| (n >>> 6), 0x80 ||| (n &&& 0x3f)]
  else if n < 0x10000 then
    [0xe0 ||| (n >>> 12), 0x80 ||| ((n >>> 6) &&& 0x3f), 0x80 ||| (n &&& 0x3f)]
  else
    [0xf0 ||| (n >>> 18), 0x80 ||| ((n >>> 12) &&& 0x3f),
     0x80 ||| ((n >>> 6) &&& 0x3f), 0x80 ||| (n &&& 0x3f)]

/-- UTF-8 bytes of a string, modelling email.encode in the source. -/
def utf8Encode (s : String) : List Nat := s.data.flatMap utf8Char

/-- hashlib.md5(email.encode("utf-8")).hexdigest(), as used for avatar hashes. -/
def email_md5 (email : String) : String := MD5.md5hex (utf8Encode email)


/-! ## Decimal rendering of integers, modelling str(n) for ids in mirror keys -/

/-- Decimal digits of `n`, most significant first, with structural fuel. -/
def decDigitsGo : Nat → Nat → List Char
  | 0, _ => []
  | fuel + 1, n =>
    if n < 10 then [Nat.digitChar n]
    else decDigitsGo fuel (n / 10) ++ [Nat.digitChar (n % 10)]

/-- Python str(n) for a nonnegative integer: decimal digits. -/
def strOfNat (n : Nat) : String := String.mk (decDigitsGo (n + 1) n)

/-- Numeric value of one decimal digit character. -/
def charVal (c : Char) : Nat := c.toNat - 48

/-- Numeric value of a most-significant-first decimal digit string. -/
def decVal (l : List Char) : Nat := l.foldl (fun a c => 10 * a + charVal c) 0

/-! ## The audit-mirror ledger -/

/-- Modelled from the spec: the blockchain module consumed via
`from . import blockchain` is not under src; the spec describes the
AuditMirror boundary as a key/value ledger with put(key, value) and
delete(key).  A put stores the value under the key, replacing any
previous value; keys are dot/slash-namespaced strings. -/
def blockChainPut {α : Type} : List (String × α) → String → α → List (String × α)
  | [], k, v => [(k, v)]
  | (k0, v0) :: rest, k, v =>
    if k0 == k then (k, v) :: rest else (k0, v0) :: blockChainPut rest k v

/-- Modelled from the spec: delete(key) removes the record stored under
the key from the ledger. -/
def blockChainDelete {α : Type} (m : List (String × α)) (k : String) :
    List (String × α) :=
  m.filter (fun kv => kv.1 != k)

/-- Read a key back from the modelled ledger (used only to state theorems;
the spec notes no read API is required by the core). -/
def lookupKV {α : Type} (m : List (String × α)) (k : String) : Option α :=
  (m.find? (fun kv => kv.1 == k)).map (fun kv => kv.2)

/-! ## Permission constants (class Permission) -/

namespace Permission

def FOLLOW : Nat := 0x01
def COMMENT : Nat := 0x02
def WRITE_ARTICLES : Nat := 0x04
def MODERATE_COMMENTS : Nat := 0x08
def ADMINISTER : Nat := 0x80

end Permission

/-! ## Role (class Role) -/

/-- A row of the roles table: id, unique name, default flag, permission
bitmask. -/
structure Role where
  id : Nat
  name : String
  default : Bool
  permissions : Nat
deriving DecidableEq

/-- The Role.to_blockchain snapshot dict: id, name, is_default, permissions. -/
structure RoleSnap where
  id : Nat
  name : String
  is_default : Bool
  permissions : Nat
deriving DecidableEq

def Role.to_blockchain (r : Role) : RoleSnap :=
  { id := r.id, name := r.name, is_default := r.default,
    permissions := r.permissions }

/-- The roles table plus the id counter the database assigns to inserted
rows and the audit-mirror ledger. -/
structure RoleDB where
  table : List Role
  nextId : Nat
  mirror : List (String × RoleSnap)
deriving DecidableEq

/-- The role dictionary iterated by Role.update_roles, in insertion order:
name, permission bitmask, default flag. -/
def role_specs : List (String × Nat × Bool) :=
  [("User", Permission.FOLLOW ||| Permission.COMMENT |||
      Permission.WRITE_ARTICLES, true),
   ("Moderator", Permission.FOLLOW ||| Permission.COMMENT |||
      Permission.WRITE_ARTICLES ||| Permission.MODERATE_COMMENTS, false),
   ("Administrator", 0xff, false)]

/-- Replace the first element satisfying `p` with `x` (an in-place ORM
update of the row found by filter_by(...).first()). -/
def setFirst {α : Type} (p : α → Bool) (x : α) : List α → List α
  | [] => []
  | y :: l => if p y then x :: l else y :: setFirst p x l

/-- One iteration of the Role.update_roles loop: look the role up by name,
create it if missing, overwrite its permissions and default flag, and put
its snapshot to the ledger under "weibo.role." ++ str(id). -/
def update_roles_step (st : RoleDB) (spec : String × Nat × Bool) : RoleDB :=
  match st.table.find? (fun r => r.name == spec.1) with
  | some r =>
    let r1 : Role := { r with permissions := spec.2.1, default := spec.2.2 }
    { table := setFirst (fun x => x.name == spec.1) r1 st.table,
      nextId := st.nextId,
      mirror := blockChainPut st.mirror ("weibo.role." ++ strOfNat r1.id)
        r1.to_blockchain }
  | none =>
    let r1 : Role :=
      { id := st.nextId, name := spec.1, default := spec.2.2,
        permissions := spec.2.1 }
    { table := st.table ++ [r1],
      nextId := st.nextId + 1,
      mirror := blockChainPut st.mirror ("weibo.role." ++ strOfNat r1.id)
        r1.to_blockchain }

/-- Role.update_roles: upsert the three canonical roles by name. -/
def update_roles (st : RoleDB) : RoleDB := role_specs.foldl update_roles_step st

/-! ## Follow edges (class Follow) -/

/-- A row of the follows table, composite key (follower_id, followed_id). -/
structure Follow where
  follower_id : Nat
  followed_id : Nat
  timestamp : Nat
deriving DecidableEq

/-- The Follow.to_blockchain snapshot dict. -/
structure FollowSnap where
  follower_id : Nat
  followed_id : Nat
  timestamp : Nat
deriving DecidableEq

def Follow.to_blockchain (f : Follow) : FollowSnap :=
  { follower_id := f.follower_id, followed_id := f.followed_id,
    timestamp := f.timestamp }

/-- The follows table plus its audit-mirror ledger. -/
structure FollowDB where
  follows : List Follow
  mirror : List (String × FollowSnap)
deriving DecidableEq

/-- The self.followed relationship: rows whose follower_id is self.id. -/
def followedRel (db : FollowDB) (selfId : Nat) : List Follow :=
  db.follows.filter (fun f => f.follower_id == selfId)

/-- The self.followers relationship: rows whose followed_id is self.id. -/
def followersRel (db : FollowDB) (selfId : Nat) : List Follow :=
  db.follows.filter (fun f => f.followed_id == selfId)

/-- User.is_following: self.followed.filter_by(followed_id=user.id).first()
is truthy. -/
def is_following (db : FollowDB) (selfId userId : Nat) : Bool :=
  ((followedRel db selfId).find? (fun f => f.followed_id == userId)).isSome

/-- User.is_followed_by: self.followers.filter_by(follower_id=user.id).first()
is truthy. -/
def is_followed_by (db : FollowDB) (selfId userId : Nat) : Bool :=
  ((followersRel db selfId).find? (fun f => f.follower_id == userId)).isSome

/-- The mirror key "weibo.follow." + str(follower_id) + "/" + str(followed_id). -/
def followKey (a b : Nat) : String :=
  "weibo.follow." ++ strOfNat a ++ "/" ++ strOfNat b

/-- User.set_follow: insert the edge and put its snapshot unless the edge
already exists.  `now` is the timestamp default datetime.utcnow supplies. -/
def set_follow (db : FollowDB) (selfId userId now : Nat) : FollowDB :=
  if !(is_following db selfId userId) then
    let f : Follow :=
      { follower_id := selfId, followed_id := userId, timestamp := now }
    { follows := db.follows ++ [f],
      mirror := blockChainPut db.mirror (followKey f.follower_id f.followed_id)
        f.to_blockchain }
  else db

/-- User.set_unfollow: find the edge via the followed relationship; if
present, delete the row and delete its mirror key. -/
def set_unfollow (db : FollowDB) (selfId userId : Nat) : FollowDB :=
  match (followedRel db selfId).find? (fun f => f.followed_id == userId) with
  | some f =>
    { follows := db.follows.erase f,
      mirror := blockChainDelete db.mirror
        (followKey f.follower_id f.followed_id) }
  | none => db

/-! ## Posts (class Post) and the followed-posts feed -/

/-- A row of the posts table. -/
structure Post where
  id : Nat
  body : String
  timestamp : Nat
  author_id : Nat
deriving DecidableEq

/-- User.followed_posts: Post.query joined with Follow on
Follow.followed_id == Post.author_id, filtered by
Follow.follower_id == self.id.  No order_by is applied, so the rows come
in the underlying post-store order. -/
def followed_posts (posts : List Post) (follows : List Follow)
    (selfId : Nat) : List Post :=
  posts.flatMap (fun p =>
    (follows.filter (fun f =>
      f.followed_id == p.author_id && f.follower_id == selfId)).map
      (fun _ => p))

/-! ## Users (class User) -/

/-- A row of the users table.  The role relationship is embedded directly
(role_id resolved to the Role row); nullable columns are Options. -/
structure User where
  id : Nat
  email : Option String
  username : Option String
  realname : Option String
  sex : String
  password_hash : Option String
  role : Option Role
  confirmed : Bool
  location : Option String
  about_me : Option String
  member_since : Nat
  last_seen : Nat
  avatar_hash : Option String
deriving DecidableEq

/-- The User.to_blockchain snapshot dict.  The counts (postCount,
comments_count, followed, followers) are denormalized values computed
from relationships at mirror time; the source stores username under the
realname key as well. -/
structure UserSnap where
  id : Nat
  email : Option String
  username : Option String
  realname : Option String
  sex : String
  password_hash : Option String
  role_id : Option Nat
  confrim : Bool
  location : Option String
  about_me : Option String
  member_since : Nat
  last_seen : Nat
  avatar_hash : Option String
  postCount : Nat
  comments_count : Nat
  followed : Nat
  followers : Nat
deriving DecidableEq

/-- Relationship-derived counts fed into User.to_blockchain. -/
structure UserCounts where
  postCount : Nat
  comments_count : Nat
  followed : Nat
  followers : Nat
deriving DecidableEq

def User.to_blockchain (u : User) (k : UserCounts) : UserSnap :=
  { id := u.id, email := u.email, username := u.username,
    realname := u.username, sex := u.sex, password_hash := u.password_hash,
    role_id := u.role.map (fun r => r.id), confrim := u.confirmed,
    location := u.location, about_me := u.about_me,
    member_since := u.member_since, last_seen := u.last_seen,
    avatar_hash := u.avatar_hash, postCount := k.postCount,
    comments_count := k.comments_count, followed := k.followed,
    followers := k.followers }

/-- User.can: the user has a role and the bitwise AND of the role
permissions with the requested permissions equals the requested
permissions. -/
def User.can (u : User) (permissions : Nat) : Bool :=
  match u.role with
  | none => false
  | some r => (r.permissions &&& permissions) == permissions

/-- AnonymousUser.can: an anonymous visitor has no permission at all. -/
def AnonymousUser.can (_permissions : Nat) : Bool := false

/-- User.__init__ role/avatar logic.  `u` holds the keyword-argument state
of the fresh object; `roles` is the roles table and `fladmin` the
configured FLASK_ADMIN address.  If no role was supplied, an identity
whose email equals the configured admin address gets the first role with
permissions 0xff, anyone else the first role flagged default; then, when
email is set and no avatar hash was supplied, the avatar hash becomes the
MD5 hex digest of the email. -/
def user_init (roles : List Role) (fladmin : Option String) (u : User) :
    User :=
  let u1 :=
    if u.role.isNone then
      if u.email == fladmin then
        { u with role := roles.find? (fun r => r.permissions == 0xff) }
      else
        { u with role := roles.find? (fun r => r.default) }
    else u
  match u1.email, u1.avatar_hash with
  | some e, none => { u1 with avatar_hash := some (email_md5 e) }
  | _, _ => u1

/-! ## Credential hashing boundary (werkzeug) and User.verify_password -/

/-- Modelled from the spec: werkzeug.security.generate_password_hash is an
external black-box one-way hash capability, hash(raw) -> opaque; any
deterministic encoding models it for verification purposes. -/
def generate_password_hash (raw : String) : String := "pbkdf2." ++ raw

/-- Modelled from the spec: werkzeug.security.check_password_hash is the
external verify(raw, opaque) -> bool capability; per the spec it never
throws and returns false on any mismatch, including against an unset
stored hash. -/
def check_password_hash (pwhash : Option String) (password : String) : Bool :=
  match pwhash with
  | none => false
  | some h => h == generate_password_hash password

/-- User.verify_password delegates to check_password_hash on the stored
hash. -/
def User.verify_password (u : User) (password : String) : Bool :=
  check_password_hash u.password_hash password

/-! ## Signed tokens (itsdangerous) and User.confirm -/

/-- Modelled from the spec: a signed, time-limited token of the external
itsdangerous boundary.  It carries a payload dict (string keys, integer
values) together with whether its signature is intact and whether it has
expired at verification time. -/
structure Token where
  payload : List (String × Nat)
  sig_ok : Bool
  expired : Bool
deriving DecidableEq

/-- Modelled from the spec: Serializer(...).loads: unsign(token) ->
payload or failure; expiry and signature failure both fail (the source
catches every exception and the spec maps both to a single failure). -/
def serializerLoads (t : Token) : Option (List (String × Nat)) :=
  if t.sig_ok && !t.expired then some t.payload else none

/-- User.generate_confirmation_token: a signed token whose payload is the
dict with key "confirm" mapping to the user id (fresh, so neither
tampered with nor expired). -/
def User.generate_confirmation_token (u : User) : Token :=
  { payload := [("confirm", u.id)], sig_ok := true, expired := false }

/-- A user row together with the user audit-mirror ledger. -/
structure ConfirmState where
  user : User
  mirror : List (String × UserSnap)
deriving DecidableEq

/-- User.confirm: decode the token, failing closed on any loads failure;
fail if the payload entry under "confirm" differs from self.id; otherwise
set confirmed, put the updated snapshot under "weibo.user." ++ str(id),
and return True. -/
def confirm (st : ConfirmState) (k : UserCounts) (t : Token) :
    Bool × ConfirmState :=
  match serializerLoads t with
  | none => (false, st)
  | some data =>
    if (data.lookup "confirm") == some st.user.id then
      let u1 : User := { st.user with confirmed := true }
      (true, { user := u1,
               mirror := blockChainPut st.mirror
                 ("weibo.user." ++ strOfNat u1.id) (u1.to_blockchain k) })
    else (false, st)

/-! ## Concrete fixtures used by witness statements -/

/-- The canonical ordinary-user role row. -/
def roleUser : Role :=
  { id := 1, name := "User", default := true, permissions := 0x07 }

/-- The canonical administrator role row. -/
def roleAdmin : Role :=
  { id := 3, name := "Administrator", default := false, permissions := 0xff }

/-- A user row with every nullable column unset. -/
def blankUser : User :=
  { id := 1, email := none, username := none, realname := none, sex := "男",
    password_hash := none, role := none, confirmed := false, location := none,
    about_me := none, member_since := 0, last_seen := 0, avatar_hash := none }

/-- A user row whose stored credential hash is that of "secret". -/
def secretUser : User :=
  { blankUser with password_hash := some (generate_password_hash "secret") }

/-- A token whose signature check fails. -/
def tokBadSig : Token :=
  { payload := [("confirm", 1)], sig_ok := false, expired := false }

/-- A token that has expired by verification time. -/
def tokExpired : Token :=
  { payload := [("confirm", 1)], sig_ok := true, expired := true }

/-- An intact, unexpired token carrying a mismatching identity id. -/
def tokWrongId : Token :=
  { payload := [("confirm", 2)], sig_ok := true, expired := false }

/-- The relationship counts fed to the snapshot in witness statements. -/
def zeroCounts : UserCounts :=
  { postCount := 0, comments_count := 0, followed := 0, followers := 0 }

/-! ## Helper lemmas -/

theorem land_eq_iff_testBit (m p : Nat) :
    m &&& p = p ↔ ∀ i, p.testBit i = true → m.testBit i = true := by
  constructor
  · intro h i hp
    have hb := congrArg (fun x => Nat.testBit x i) h
    simp only [Nat.testBit_land] at hb
    rw [hp] at hb
    simpa using hb
  · intro h
    apply Nat.eq_of_testBit_eq
    intro i
    rw [Nat.testBit_land]
    cases hp : p.testBit i
    · simp
    · simp [h i hp]

theorem find_isSome_any {α : Type} (r : α → Bool) (l : List α) :
    (l.find? r).isSome = l.any r := by
  induction l with
  | nil => rfl
  | cons x t ih => by_cases h : r x <;> simp [List.find?_cons, h, ih]

theorem find_isSome_filter {α : Type} (p q : α → Bool) (l : List α) :
    ((l.filter q).find? p).isSome = l.any (fun x => q x && p x) := by
  induction l with
  | nil => rfl
  | cons x t ih =>
    by_cases hq : q x
    · by_cases hp : p x
      · simp [List.filter_cons, hq, hp]
      · simp only [List.filter_cons, hq, if_true, List.find?_cons, hp,
          List.any_cons, Bool.and_eq_true, hq]
        simp [hp, hq, ih, find_isSome_any]
    · simp only [List.filter_cons, hq, if_false, List.any_cons]
      simp [hq, ih, find_isSome_any]

/-! ## C1: permission checks -/

/-- C1: for an identity holding role r, can(p) is true iff
(r.permissions & p) == p, i.e. iff every bit of p is set in
r.permissions; a null role and the anonymous user yield false for every
p. -/
theorem c1_can_iff_bitmask (u : User) (p : Nat) :
    (∀ r, u.role = some r →
      ((u.can p = true ↔ (r.permissions &&& p) = p) ∧
       (u.can p = true ↔
         ∀ i, p.testBit i = true → r.permissions.testBit i = true))) ∧
    (u.role = none → u.can p = false) ∧
    AnonymousUser.can p = false := by
  refine ⟨fun r hr => ?_, fun h => ?_, rfl⟩
  · constructor
    · simp [User.can, hr]
    · simp [User.can, hr, land_eq_iff_testBit]
  · simp [User.can, h]

/-- Witness for C1 at the scenario of the spec: role permissions 0x07
grants COMMENT but denies MODERATE_COMMENTS and ADMINISTER, the role-less
user and the anonymous user are denied. -/
theorem c1_witness :
    ({ blankUser with role := some roleUser } : User).can Permission.COMMENT
        = true ∧
    ({ blankUser with role := some roleUser } : User).can
        Permission.MODERATE_COMMENTS = false ∧
    ({ blankUser with role := some roleUser } : User).can
        Permission.ADMINISTER = false ∧
    blankUser.can Permission.COMMENT = false ∧
    AnonymousUser.can Permission.ADMINISTER = false := by
  have h1 := c1_can_iff_bitmask { blankUser with role := some roleUser }
    Permission.COMMENT
  have h2 := c1_can_iff_bitmask { blankUser with role := some roleUser }
    Permission.MODERATE_COMMENTS
  have h3 := c1_can_iff_bitmask { blankUser with role := some roleUser }
    Permission.ADMINISTER
  have h4 := c1_can_iff_bitmask blankUser Permission.COMMENT
  have h5 := c1_can_iff_bitmask blankUser Permission.ADMINISTER
  refine ⟨((h1.1 roleUser rfl).1).mpr (by decide), ?_, ?_, h4.2.1 rfl,
    h5.2.2⟩
  · have := (h2.1 roleUser rfl).1
    cases hc : ({ blankUser with role := some roleUser } : User).can
        Permission.MODERATE_COMMENTS
    · rfl
    · exact absurd (this.mp hc) (by decide)
  · have := (h3.1 roleUser rfl).1
    cases hc : ({ blankUser with role := some roleUser } : User).can
        Permission.ADMINISTER
    · rfl
    · exact absurd (this.mp hc) (by decide)

/-! ## C10: duality of the edge checks -/

/-- C10: isFollowing(A, B) and isFollowedBy(B, A) agree on every follow
graph: both test existence of the directed edge (A, B). -/
theorem c10_following_duality (db : FollowDB) (a b : Nat) :
    is_following db a b = is_followed_by db b a := by
  unfold is_following is_followed_by followedRel followersRel
  rw [find_isSome_filter, find_isSome_filter]
  have : (fun f : Follow => f.followed_id == b && f.follower_id == a)
      = fun f : Follow => f.follower_id == a && f.followed_id == b :=
    funext fun f => Bool.and_comm _ _
  rw [this]

/-! ## C4: verify_password is total and false on mismatch -/

/-- C4: verifyCredential returns a boolean for every identity (also one
whose stored hash is unset) and every raw input, and returns false
whenever the input does not hash to the stored value. -/
theorem c4_verify_password_false_on_mismatch (u : User) (raw : String) :
    (u.password_hash = none → u.verify_password raw = false) ∧
    (u.password_hash ≠ some (generate_password_hash raw) →
      u.verify_password raw = false) := by
  constructor
  · intro h
    simp [User.verify_password, check_password_hash, h]
  · intro h
    unfold User.verify_password check_password_hash
    cases hp : u.password_hash with
    | none => rfl
    | some s =>
      simp only [beq_eq_false_iff_ne, ne_eq]
      intro he
      exact h (by rw [hp, he])

/-- Witness for C4: a stored hash of "secret" rejects the empty and a
wrong password, and an unset hash rejects everything. -/
theorem c4_witness :
    secretUser.verify_password "" = false ∧
    secretUser.verify_password "wrong" = false ∧
    blankUser.verify_password "secret" = false := by
  refine ⟨?_, ?_, ?_⟩
  · exact (c4_verify_password_false_on_mismatch secretUser "").2 (by decide)
  · exact (c4_verify_password_false_on_mismatch secretUser "wrong").2
      (by decide)
  · exact (c4_verify_password_false_on_mismatch blankUser "secret").1 rfl

/-! ## C3: avatar fingerprint derivation -/

set_option maxRecDepth 100000 in
/-- C3 counterexample: the avatar fingerprint is the MD5 of the email as
given, without lowercase normalization: "a@b.c" is the lowercase
normalization of "A@b.c", yet the two creations get different
fingerprints, and the fingerprint stored for "A@b.c" is not the digest
of its lowercase normalization "a@b.c". -/
theorem c3_counterexample :
    (user_init [] none { blankUser with email := some "A@b.c" }).avatar_hash
      = some (email_md5 "A@b.c") ∧
    (user_init [] none { blankUser with email := some "a@b.c" }).avatar_hash
      = some (email_md5 "a@b.c") ∧
    email_md5 "A@b.c" ≠ email_md5 "a@b.c" ∧
    (user_init [] none { blankUser with email := some "A@b.c" }).avatar_hash
      ≠ some (email_md5 "a@b.c") := by
  refine ⟨by decide, by decide, by decide, by decide⟩

/-- C3 as amended: for an identity created with a non-null email and no
explicitly supplied avatar fingerprint, the stored fingerprint is the
MD5 hex digest of the email exactly as supplied (no lowercase
normalization is applied). -/
theorem c3_avatar_is_md5_of_raw_email (roles : List Role)
    (fladmin : Option String) (u : User) (e : String)
    (he : u.email = some e) (ha : u.avatar_hash = none) :
    (user_init roles fladmin u).avatar_hash = some (email_md5 e) := by
  obtain ⟨i, em, un, rn, sx, ph, rl, cf, lc, ab, ms, ls, ah⟩ := u
  simp only at he ha
  subst he ha
  unfold user_init
  by_cases h1 : (rl : Option Role).isNone
  · by_cases h2 : (some e == fladmin) <;> simp [h1, h2]
  · simp [h1]

/-- Witness for C3 as amended, at the email "x@y.z". -/
theorem c3_witness :
    (user_init [] none { blankUser with email := some "x@y.z" }).avatar_hash
      = some (email_md5 "x@y.z") :=
  c3_avatar_is_md5_of_raw_email [] none
    { blankUser with email := some "x@y.z" } "x@y.z" rfl rfl

/-! ## C2: the followed-posts feed -/

/-- C2 counterexample: followed_posts applies no ordering; with the post
store holding an older post before a newer one by the same followed
author, the feed comes back oldest-first, not newest-first. -/
theorem c2_counterexample :
    followed_posts
      [{ id := 1, body := "old", timestamp := 1, author_id := 2 },
       { id := 2, body := "new", timestamp := 5, author_id := 2 }]
      [{ follower_id := 1, followed_id := 2, timestamp := 0 }] 1
    = [{ id := 1, body := "old", timestamp := 1, author_id := 2 },
       { id := 2, body := "new", timestamp := 5, author_id := 2 }] ∧
    ¬ List.Pairwise (fun p q : Post => q.timestamp ≤ p.timestamp)
      (followed_posts
        [{ id := 1, body := "old", timestamp := 1, author_id := 2 },
         { id := 2, body := "new", timestamp := 5, author_id := 2 }]
        [{ follower_id := 1, followed_id := 2, timestamp := 0 }] 1) := by
  constructor
  · rfl
  · decide

/-- C2 as amended: followedPosts(A) contains exactly the posts whose
author is some user B with a follow edge (A, B); the sequence follows
the underlying post-store order, with no newest-first ordering imposed. -/
theorem c2_followed_posts_membership (posts : List Post)
    (follows : List Follow) (selfId : Nat) (p : Post) :
    p ∈ followed_posts posts follows selfId ↔
      p ∈ posts ∧ ∃ f ∈ follows,
        f.follower_id = selfId ∧ f.followed_id = p.author_id := by
  simp only [followed_posts, List.mem_flatMap, List.mem_map, List.mem_filter,
    Bool.and_eq_true, beq_iff_eq]
  constructor
  · rintro ⟨q, hq, f, ⟨hf, hfa, hfb⟩, rfl⟩
    exact ⟨hq, f, hf, hfb, hfa⟩
  · rintro ⟨hp, f, hf, hfa, hfb⟩
    exact ⟨p, hp, f, ⟨hf, hfb, hfa⟩, rfl⟩

/-! ## Ledger lemmas -/

theorem lookup_put_same {α : Type} (m : List (String × α)) (k : String)
    (v : α) : lookupKV (blockChainPut m k v) k = some v := by
  induction m with
  | nil => simp [blockChainPut, lookupKV]
  | cons kv m ih =>
    by_cases h : kv.1 == k
    · simp [blockChainPut, h, lookupKV]
    · simpa [blockChainPut, h, lookupKV] using ih

theorem lookup_put_ne {α : Type} (m : List (String × α)) (k k' : String)
    (v : α) (h : k' ≠ k) :
    lookupKV (blockChainPut m k v) k' = lookupKV m k' := by
  have h1 : (k == k') = false := beq_eq_false_iff_ne.mpr (Ne.symm h)
  induction m with
  | nil => simp [blockChainPut, lookupKV, List.find?_cons, h1]
  | cons kv m ih =>
    by_cases hk : kv.1 == k
    · have hkk : kv.1 = k := by simpa using hk
      have h2 : (kv.1 == k') = false := by rw [hkk]; exact h1
      simp [blockChainPut, hk, lookupKV, List.find?_cons, h1, h2]
    · by_cases hx : kv.1 == k'
      · simp [blockChainPut, hk, lookupKV, List.find?_cons, hx]
      · simpa [blockChainPut, hk, lookupKV, List.find?_cons, hx] using ih

theorem lookup_delete_same {α : Type} (m : List (String × α)) (k : String) :
    lookupKV (blockChainDelete m k) k = none := by
  induction m with
  | nil => rfl
  | cons kv m ih =>
    by_cases h : kv.1 = k
    · have hb : (kv.1 != k) = false := by simp [h]
      simpa [blockChainDelete, List.filter_cons, hb] using ih
    · have hb : (kv.1 != k) = true := by simp [h]
      have hne : (kv.1 == k) = false := by simp [h]
      simp only [blockChainDelete, List.filter_cons, hb, if_true]
      simp only [lookupKV, List.find?_cons, hne]
      exact ih

/-! ## C5: follow is idempotent -/

theorem is_following_eq_any (db : FollowDB) (a b : Nat) :
    is_following db a b
      = db.follows.any (fun f => f.follower_id == a && f.followed_id == b) := by
  unfold is_following followedRel
  rw [find_isSome_filter]

/-- C5: follow(A, B) is a no-op when the edge already exists; following
twice equals following once; from an edge-free state one follow leaves
exactly one edge for the ordered pair and mirrors its snapshot under the
composite key follower_id/followed_id. -/
theorem c5_follow_idempotent (db : FollowDB) (a b t t2 : Nat) :
    (is_following db a b = true → set_follow db a b t = db) ∧
    set_follow (set_follow db a b t) a b t2 = set_follow db a b t ∧
    (is_following db a b = false →
      (set_follow db a b t).follows.countP
          (fun f => f.follower_id == a && f.followed_id == b) = 1 ∧
      (set_follow (set_follow db a b t) a b t2).follows.countP
          (fun f => f.follower_id == a && f.followed_id == b) = 1 ∧
      lookupKV (set_follow db a b t).mirror (followKey a b)
        = some { follower_id := a, followed_id := b, timestamp := t }) := by
  have hpair : (fun f : Follow => f.follower_id == a && f.followed_id == b)
      { follower_id := a, followed_id := b, timestamp := t } = true := by simp
  have hidem : set_follow (set_follow db a b t) a b t2 = set_follow db a b t := by
    by_cases hf : is_following db a b
    · simp [set_follow, hf]
    · have hf' : is_following (set_follow db a b t) a b = true := by
        simp only [Bool.not_eq_true] at hf
        simp [set_follow, hf, is_following_eq_any, List.any_append]
      set db1 := set_follow db a b t with hdb1
      simp [set_follow, hf']
  refine ⟨fun h => by simp [set_follow, h], hidem, fun h => ?_⟩
  have hcount : db.follows.countP
      (fun f => f.follower_id == a && f.followed_id == b) = 0 := by
    rw [is_following_eq_any] at h
    refine List.countP_eq_zero.mpr ?_
    intro f hf
    have := (List.any_eq_false.mp h) f hf
    simpa using this
  have h1 : (set_follow db a b t).follows.countP
      (fun f => f.follower_id == a && f.followed_id == b) = 1 := by
    simp [set_follow, h, List.countP_append, hcount, List.countP_cons, hpair]
  refine ⟨h1, by rw [hidem]; exact h1, ?_⟩
  simp only [set_follow, h, Bool.not_false, if_true]
  exact lookup_put_same _ _ _

/-- Witness for C5 on the empty graph: user 1 follows user 2 twice. -/
theorem c5_witness :
    set_follow (set_follow ⟨[], []⟩ 1 2 3) 1 2 4 = set_follow ⟨[], []⟩ 1 2 3 ∧
    (set_follow (set_follow ⟨[], []⟩ 1 2 3) 1 2 4).follows.countP
      (fun f => f.follower_id == 1 && f.followed_id == 2) = 1 ∧
    lookupKV (set_follow ⟨[], []⟩ 1 2 3).mirror (followKey 1 2)
      = some { follower_id := 1, followed_id := 2, timestamp := 3 } := by
  have h := c5_follow_idempotent ⟨[], []⟩ 1 2 3 4
  have h2 := h.2.2 (by decide)
  exact ⟨h.2.1, h2.2.1, h2.2.2⟩

/-! ## C6: unfollow -/

/-- C6: unfollow(A, B) is a no-op when the edge is absent; from an
edge-free state, follow(A, B) then unfollow(A, B) restores the edge set,
leaves isFollowing(A, B) false and no mirror record under the composite
key; when the edge is present, unfollow deletes that row and issues a
mirror-delete for the same composite key used at follow time. -/
theorem c6_unfollow (db : FollowDB) (a b t : Nat) :
    (is_following db a b = false → set_unfollow db a b = db) ∧
    (is_following db a b = false →
      (set_unfollow (set_follow db a b t) a b).follows = db.follows ∧
      is_following (set_unfollow (set_follow db a b t) a b) a b = false ∧
      (set_unfollow (set_follow db a b t) a b).follows.countP
        (fun f => f.follower_id == a && f.followed_id == b) = 0 ∧
      lookupKV (set_unfollow (set_follow db a b t) a b).mirror
        (followKey a b) = none) ∧
    (∀ f, (followedRel db a).find? (fun g => g.followed_id == b) = some f →
      (set_unfollow db a b).follows = db.follows.erase f ∧
      (set_unfollow db a b).mirror
        = blockChainDelete db.mirror (followKey a b)) := by
  refine ⟨fun h => ?_, fun h => ?_, fun f hf => ?_⟩
  · have hfind : (followedRel db a).find? (fun g => g.followed_id == b)
        = none :=
      Option.not_isSome_iff_eq_none.mp (by simpa [is_following] using h)
    unfold set_unfollow
    rw [hfind]
  · have hany : db.follows.any
        (fun f => f.follower_id == a && f.followed_id == b) = false := by
      rw [← is_following_eq_any]; exact h
    have hfind : (followedRel db a).find? (fun g => g.followed_id == b)
        = none :=
      Option.not_isSome_iff_eq_none.mp (by simpa [is_following] using h)
    have hnotmem :
        ({ follower_id := a, followed_id := b, timestamp := t } : Follow)
          ∉ db.follows := by
      intro hm
      have := (List.any_eq_false.mp hany) _ hm
      simp at this
    have hdb1 : set_follow db a b t
        = { follows := db.follows ++
              [{ follower_id := a, followed_id := b, timestamp := t }],
            mirror := blockChainPut db.mirror (followKey a b)
              ({ follower_id := a, followed_id := b,
                 timestamp := t } : Follow).to_blockchain } := by
      simp [set_follow, h]
    have hrel : followedRel (set_follow db a b t) a
        = (followedRel db a) ++
          [{ follower_id := a, followed_id := b, timestamp := t }] := by
      rw [hdb1]
      simp [followedRel, List.filter_append]
    have hfind2 : (followedRel (set_follow db a b t) a).find?
        (fun g => g.followed_id == b)
        = some { follower_id := a, followed_id := b, timestamp := t } := by
      rw [hrel, List.find?_append, hfind]
      simp
    have hres : set_unfollow (set_follow db a b t) a b
        = { follows := db.follows,
            mirror := blockChainDelete
              (blockChainPut db.mirror (followKey a b)
                ({ follower_id := a, followed_id := b,
                   timestamp := t } : Follow).to_blockchain)
              (followKey a b) } := by
      unfold set_unfollow
      rw [hfind2]
      rw [hdb1]
      simp [List.erase_append_right _ hnotmem]
    rw [hres]
    refine ⟨rfl, ?_, ?_, lookup_delete_same _ _⟩
    · rw [is_following_eq_any]
      exact hany
    · refine List.countP_eq_zero.mpr ?_
      intro f hfm
      have := (List.any_eq_false.mp hany) f hfm
      simpa using this
  · have hp := List.find?_some hf
    have hm : f ∈ followedRel db a := List.mem_of_find?_eq_some hf
    have hq := (List.mem_filter.mp hm).2
    have hb : f.followed_id = b := by simpa using hp
    have ha : f.follower_id = a := by simpa using hq
    have hkey : followKey f.follower_id f.followed_id = followKey a b := by
      rw [hb, ha]
    unfold set_unfollow
    rw [hf]
    exact ⟨rfl, by rw [← hkey]⟩

/-- Witness for C6 on the empty graph: follow then unfollow of (1, 2). -/
theorem c6_witness :
    set_unfollow ⟨[], []⟩ 1 2 = (⟨[], []⟩ : FollowDB) ∧
    (set_unfollow (set_follow ⟨[], []⟩ 1 2 3) 1 2).follows = [] ∧
    is_following (set_unfollow (set_follow ⟨[], []⟩ 1 2 3) 1 2) 1 2
      = false ∧
    lookupKV (set_unfollow (set_follow ⟨[], []⟩ 1 2 3) 1 2).mirror
      (followKey 1 2) = none := by
  have h := c6_unfollow ⟨[], []⟩ 1 2 3
  have h2 := h.2.1 (by decide)
  exact ⟨h.1 (by decide), h2.1, h2.2.1, h2.2.2.2⟩

/-! ## C7: confirmation tokens fail closed and commit atomically -/

/-- C7: confirmWithToken returns false with the state wholly unchanged on
signature failure, expiry, or payload-id mismatch; on a token valid for
this identity it performs the single transition to confirmed = true with
the updated snapshot mirrored, and returns true; the freshly issued
confirmation token of the identity itself succeeds. -/
theorem c7_confirm_fail_closed (st : ConfirmState) (k : UserCounts)
    (t : Token) :
    (serializerLoads t = none → confirm st k t = (false, st)) ∧
    (t.sig_ok = false → confirm st k t = (false, st)) ∧
    (t.expired = true → confirm st k t = (false, st)) ∧
    (∀ d, serializerLoads t = some d →
      d.lookup "confirm" ≠ some st.user.id → confirm st k t = (false, st)) ∧
    (∀ d, serializerLoads t = some d →
      d.lookup "confirm" = some st.user.id →
      confirm st k t = (true,
        { user := { st.user with confirmed := true },
          mirror := blockChainPut st.mirror
            ("weibo.user." ++ strOfNat st.user.id)
            (({ st.user with confirmed := true } : User).to_blockchain k) }) ∧
      lookupKV (confirm st k t).2.mirror
          ("weibo.user." ++ strOfNat st.user.id)
        = some (({ st.user with confirmed := true } : User).to_blockchain k)) ∧
    confirm st k st.user.generate_confirmation_token = (true,
      { user := { st.user with confirmed := true },
        mirror := blockChainPut st.mirror
          ("weibo.user." ++ strOfNat st.user.id)
          (({ st.user with confirmed := true } : User).to_blockchain k) }) := by
  have hok : ∀ (t2 : Token) d, serializerLoads t2 = some d →
      d.lookup "confirm" = some st.user.id →
      confirm st k t2 = (true,
        { user := { st.user with confirmed := true },
          mirror := blockChainPut st.mirror
            ("weibo.user." ++ strOfNat st.user.id)
            (({ st.user with confirmed := true } : User).to_blockchain k) }) := by
    intro t2 d hd hl
    unfold confirm
    rw [hd]
    simp [hl]
  refine ⟨fun h => ?_, fun h => ?_, fun h => ?_, fun d hd hl => ?_,
    fun d hd hl => ⟨hok t d hd hl, ?_⟩, ?_⟩
  · unfold confirm
    rw [h]
  · unfold confirm
    simp [serializerLoads, h]
  · unfold confirm
    simp [serializerLoads, h]
  · unfold confirm
    rw [hd]
    simp [hl]
  · rw [hok t d hd hl]
    exact lookup_put_same _ _ _
  · exact hok st.user.generate_confirmation_token
      [("confirm", st.user.id)] rfl (by simp)

/-- Witness for C7: on a blank identity, a tampered token, an expired
token and a mismatched id all fail and change nothing, while the fresh
token of the identity itself confirms it. -/
theorem c7_witness :
    confirm ⟨blankUser, []⟩ zeroCounts tokBadSig = (false, ⟨blankUser, []⟩) ∧
    confirm ⟨blankUser, []⟩ zeroCounts tokExpired
      = (false, ⟨blankUser, []⟩) ∧
    confirm ⟨blankUser, []⟩ zeroCounts tokWrongId
      = (false, ⟨blankUser, []⟩) ∧
    (confirm ⟨blankUser, []⟩ zeroCounts
      blankUser.generate_confirmation_token).1 = true ∧
    (confirm ⟨blankUser, []⟩ zeroCounts
      blankUser.generate_confirmation_token).2.user.confirmed = true := by
  have h := c7_confirm_fail_closed ⟨blankUser, []⟩ zeroCounts
  refine ⟨(h tokBadSig).2.1 rfl, (h tokExpired).2.2.1 rfl,
    (h tokWrongId).2.2.2.1 [("confirm", 2)] rfl (by decide), ?_, ?_⟩
  · rw [(h blankUser.generate_confirmation_token).2.2.2.2.2]
  · rw [(h blankUser.generate_confirmation_token).2.2.2.2.2]

/-! ## C9: role assignment at creation -/

theorem user_init_role (roles : List Role) (fladmin : Option String)
    (u : User) :
    (user_init roles fladmin u).role
      = if u.role.isNone then
          (if u.email == fladmin then
            roles.find? (fun r => r.permissions == 0xff)
          else roles.find? (fun r => r.default))
        else u.role := by
  obtain ⟨i, em, un, rn, sx, ph, rl, cf, lc, ab, ms, ls, ah⟩ := u
  cases em with
  | none =>
    by_cases h1 : (rl : Option Role).isNone <;>
      by_cases h2 : ((none : Option String) == fladmin) <;>
        cases ah <;> simp [user_init, h1, h2]
  | some e =>
    by_cases h1 : (rl : Option Role).isNone <;>
      by_cases h2 : ((some e : Option String) == fladmin) <;>
        cases ah <;> simp [user_init, h1, h2]

/-- C9: an identity created without an explicit role gets the first role
whose permissions are 0xff when its email equals the configured admin
address, and the first role flagged default otherwise; whenever the
roles table holds such a role, the assignment succeeds with a role of
the stated kind. -/
theorem c9_role_assignment (roles : List Role) (fladmin : Option String)
    (u : User) (hrole : u.role = none) :
    (u.email = fladmin →
      (user_init roles fladmin u).role
        = roles.find? (fun r => r.permissions == 0xff) ∧
      (∀ r, (user_init roles fladmin u).role = some r →
        r.permissions = 0xff) ∧
      ((∃ r ∈ roles, r.permissions = 0xff) →
        ∃ r, (user_init roles fladmin u).role = some r ∧
          r.permissions = 0xff)) ∧
    (u.email ≠ fladmin →
      (user_init roles fladmin u).role = roles.find? (fun r => r.default) ∧
      (∀ r, (user_init roles fladmin u).role = some r → r.default = true) ∧
      ((∃ r ∈ roles, r.default = true) →
        ∃ r, (user_init roles fladmin u).role = some r ∧
          r.default = true)) := by
  have hr := user_init_role roles fladmin u
  rw [hrole] at hr
  constructor
  · intro he
    have hb : (u.email == fladmin) = true := by simpa using he
    simp only [hb, Option.isNone_none, if_true] at hr
    refine ⟨hr, fun r hfr => ?_, fun hex => ?_⟩
    · rw [hr] at hfr
      have := List.find?_some hfr
      simpa using this
    · obtain ⟨r, hrm, hrp⟩ := hex
      have hs : (roles.find? (fun x => x.permissions == 0xff)).isSome := by
        rw [List.find?_isSome]
        exact ⟨r, hrm, by simpa using hrp⟩
      obtain ⟨r2, hr2⟩ := Option.isSome_iff_exists.mp hs
      refine ⟨r2, by rw [hr]; exact hr2, ?_⟩
      have := List.find?_some hr2
      simpa using this
  · intro he
    have hb : (u.email == fladmin) = false := by simpa using he
    simp only [hb, Option.isNone_none, if_true, Bool.false_eq_true,
      if_false] at hr
    refine ⟨hr, fun r hfr => ?_, fun hex => ?_⟩
    · rw [hr] at hfr
      have := List.find?_some hfr
      simpa using this
    · obtain ⟨r, hrm, hrp⟩ := hex
      have hs : (roles.find? (fun x => x.default)).isSome := by
        rw [List.find?_isSome]
        exact ⟨r, hrm, by simpa using hrp⟩
      obtain ⟨r2, hr2⟩ := Option.isSome_iff_exists.mp hs
      refine ⟨r2, by rw [hr]; exact hr2, ?_⟩
      have := List.find?_some hr2
      simpa using this

/-- Witness for C9: with the canonical table, the configured admin email
gets the 0xff role and another email gets the default role. -/
theorem c9_witness :
    (user_init [roleUser, roleAdmin] (some "admin@x.y")
      { blankUser with email := some "admin@x.y" }).role = some roleAdmin ∧
    (user_init [roleUser, roleAdmin] (some "admin@x.y")
      { blankUser with email := some "u@x.y" }).role = some roleUser := by
  constructor
  · have h := (c9_role_assignment [roleUser, roleAdmin] (some "admin@x.y")
      { blankUser with email := some "admin@x.y" } rfl).1 rfl
    rw [h.1]
    decide
  · have h := (c9_role_assignment [roleUser, roleAdmin] (some "admin@x.y")
      { blankUser with email := some "u@x.y" } rfl).2 (by decide)
    rw [h.1]
    decide

/-! ## Decimal rendering lemmas (for distinctness of mirror keys) -/

theorem charVal_digitChar (d : Nat) (h : d < 10) :
    charVal (Nat.digitChar d) = d := by
  interval_cases d <;> rfl

theorem decVal_append (l : List Char) (c : Char) :
    decVal (l ++ [c]) = 10 * decVal l + charVal c := by
  unfold decVal
  rw [List.foldl_append]
  rfl

theorem decVal_decDigitsGo :
    ∀ fuel n, n < fuel → decVal (decDigitsGo fuel n) = n := by
  intro fuel
  induction fuel with
  | zero => intro n h; omega
  | succ fuel ih =>
    intro n h
    unfold decDigitsGo
    by_cases h10 : n < 10
    · rw [if_pos h10]
      show decVal [Nat.digitChar n] = n
      unfold decVal
      simpa [List.foldl] using charVal_digitChar n h10
    · rw [if_neg h10]
      rw [decVal_append]
      have h1 : n / 10 < n := Nat.div_lt_self (by omega) (by omega)
      have hlt : n / 10 < fuel := by omega
      rw [ih _ hlt, charVal_digitChar _ (Nat.mod_lt _ (by omega))]
      omega

theorem strOfNat_inj (m n : Nat) (h : strOfNat m = strOfNat n) : m = n := by
  have hm := decVal_decDigitsGo (m + 1) m (by omega)
  have hn := decVal_decDigitsGo (n + 1) n (by omega)
  have hd : decDigitsGo (m + 1) m = decDigitsGo (n + 1) n :=
    congrArg String.data h
  rw [← hm, ← hn, hd]

theorem roleKey_inj (m n : Nat) (h : m ≠ n) :
    ("weibo.role." ++ strOfNat m : String) ≠ "weibo.role." ++ strOfNat n := by
  intro he
  apply h
  apply strOfNat_inj
  have hd : "weibo.role.".data ++ (strOfNat m).data
      = "weibo.role.".data ++ (strOfNat n).data := by
    have := congrArg String.data he
    simpa [String.data_append] using this
  have hl := List.append_cancel_left hd
  show String.mk (decDigitsGo (m + 1) m) = String.mk (decDigitsGo (n + 1) n)
  exact congrArg String.mk hl

/-! ## setFirst lemmas (the in-place row update of update_roles) -/

theorem setFirst_mem_or {α : Type} (p : α → Bool) (x : α) (l : List α) :
    ∀ y ∈ setFirst p x l, y ∈ l ∨ y = x := by
  induction l with
  | nil => intro y hy; simp [setFirst] at hy
  | cons z t ih =>
    intro y hy
    by_cases hz : p z
    · simp only [setFirst, hz, if_true, List.mem_cons] at hy
      rcases hy with h | h
      · exact Or.inr h
      · exact Or.inl (List.mem_cons_of_mem _ h)
    · simp only [setFirst, hz, if_false, Bool.false_eq_true,
        List.mem_cons] at hy
      rcases hy with h | h
      · exact Or.inl (h ▸ List.mem_cons_self _ _)
      · rcases ih y h with h2 | h2
        · exact Or.inl (List.mem_cons_of_mem _ h2)
        · exact Or.inr h2

theorem mem_setFirst_of_not {α : Type} (p : α → Bool) (x y : α)
    (l : List α) (hy : p y = false) (hm : y ∈ l) : y ∈ setFirst p x l := by
  induction l with
  | nil => cases hm
  | cons z t ih =>
    by_cases hz : p z
    · rcases List.mem_cons.mp hm with h | h
      · rw [h] at hy
        rw [hy] at hz
        cases hz
      · simp only [setFirst, hz, if_true]
        exact List.mem_cons_of_mem _ h
    · rcases List.mem_cons.mp hm with h | h
      · simp only [setFirst, hz, if_false, Bool.false_eq_true]
        exact h ▸ List.mem_cons_self _ _
      · simp only [setFirst, hz, if_false, Bool.false_eq_true]
        exact List.mem_cons_of_mem _ (ih h)

theorem mem_setFirst_self {α : Type} (p : α → Bool) (x : α) (l : List α)
    (h : (l.find? p).isSome) : x ∈ setFirst p x l := by
  induction l with
  | nil => simp [List.find?] at h
  | cons z t ih =>
    by_cases hz : p z
    · simp [setFirst, hz]
    · rw [List.find?_cons_of_neg _ hz] at h
      simp only [setFirst, hz, if_false, Bool.false_eq_true]
      exact List.mem_cons_of_mem _ (ih h)

theorem find?_setFirst_self {α : Type} (p : α → Bool) (x r : α)
    (l : List α) (hl : l.find? p = some r) (hx : p x = true) :
    (setFirst p x l).find? p = some x := by
  induction l with
  | nil => cases hl
  | cons z t ih =>
    by_cases hz : p z
    · simp [setFirst, hz, List.find?_cons_of_pos _ hx]
    · rw [List.find?_cons_of_neg _ hz] at hl
      simp only [setFirst, hz, if_false, Bool.false_eq_true]
      rw [List.find?_cons_of_neg _ hz]
      exact ih hl

theorem find?_setFirst_ne {α : Type} (p q : α → Bool) (x : α) (l : List α)
    (hpq : ∀ y, p y = true → q y = false) (hqx : q x = false) :
    (setFirst p x l).find? q = l.find? q := by
  induction l with
  | nil => rfl
  | cons z t ih =>
    by_cases hz : p z
    · have hqz : q z = false := hpq z hz
      simp only [setFirst, hz, if_true]
      rw [List.find?_cons_of_neg _ (by simp [hqx]),
        List.find?_cons_of_neg _ (by simp [hqz])]
    · by_cases hqz : q z
      · simp only [setFirst, hz, if_false, Bool.false_eq_true]
        rw [List.find?_cons_of_pos _ hqz, List.find?_cons_of_pos _ hqz]
      · simp only [setFirst, hz, if_false, Bool.false_eq_true]
        rw [List.find?_cons_of_neg _ (by simpa using hqz),
          List.find?_cons_of_neg _ (by simpa using hqz)]
        exact ih

theorem map_setFirst_eq {α β : Type} (p : α → Bool) (x : α) (f : α → β)
    (l : List α) (hf : ∀ y ∈ l, p y = true → f y = f x) :
    (setFirst p x l).map f = l.map f := by
  induction l with
  | nil => rfl
  | cons z t ih =>
    by_cases hz : p z
    · simp only [setFirst, hz, if_true, List.map_cons]
      rw [hf z (List.mem_cons_self _ _) hz]
    · simp only [setFirst, hz, if_false, Bool.false_eq_true, List.map_cons]
      rw [ih (fun y hy hp => hf y (List.mem_cons_of_mem _ hy) hp)]

theorem setFirst_find?_eq_self {α : Type} (p : α → Bool) (x : α)
    (l : List α) (h : l.find? p = some x) : setFirst p x l = l := by
  induction l with
  | nil => cases h
  | cons z t ih =>
    by_cases hz : p z
    · rw [List.find?_cons_of_pos _ hz] at h
      obtain rfl := (Option.some_inj.mp h)
      simp [setFirst, hz]
    · rw [List.find?_cons_of_neg _ hz] at h
      simp only [setFirst, hz, if_false, Bool.false_eq_true]
      rw [ih h]

/-! ## One step of update_roles -/

theorem update_roles_step_spec (st : RoleDB) (n : String) (pm : Nat)
    (df : Bool)
    (hid : ∀ r ∈ st.table, r.id < st.nextId)
    (hids : (st.table.map Role.id).Nodup)
    (hnames : (st.table.map Role.name).Nodup) :
    ∃ u : Role,
      (update_roles_step st (n, pm, df)).table.find?
          (fun r => r.name == n) = some u ∧
      u.name = n ∧ u.permissions = pm ∧ u.default = df ∧
      u ∈ (update_roles_step st (n, pm, df)).table ∧
      (update_roles_step st (n, pm, df)).mirror
        = blockChainPut st.mirror ("weibo.role." ++ strOfNat u.id)
            u.to_blockchain ∧
      (∀ r ∈ (update_roles_step st (n, pm, df)).table,
        r.id < (update_roles_step st (n, pm, df)).nextId) ∧
      ((update_roles_step st (n, pm, df)).table.map Role.id).Nodup ∧
      ((update_roles_step st (n, pm, df)).table.map Role.name).Nodup ∧
      (∀ m, m ≠ n →
        (update_roles_step st (n, pm, df)).table.find?
            (fun r => r.name == m)
          = st.table.find? (fun r => r.name == m)) ∧
      (∀ y ∈ st.table, y.name ≠ n →
        y ∈ (update_roles_step st (n, pm, df)).table) ∧
      st.nextId ≤ (update_roles_step st (n, pm, df)).nextId := by
  cases hfind : st.table.find? (fun r => r.name == n) with
  | some r =>
    have hrn : r.name = n := by simpa using List.find?_some hfind
    have hrm : r ∈ st.table := List.mem_of_find?_eq_some hfind
    refine ⟨{ r with permissions := pm, default := df }, ?_⟩
    have hstep : update_roles_step st (n, pm, df)
        = { table := setFirst (fun x => x.name == n)
              { r with permissions := pm, default := df } st.table,
            nextId := st.nextId,
            mirror := blockChainPut st.mirror
              ("weibo.role." ++ strOfNat
                ({ r with permissions := pm, default := df } : Role).id)
              ({ r with permissions := pm, default := df } : Role).to_blockchain } := by
      unfold update_roles_step
      rw [hfind]
    have hun : ({ r with permissions := pm, default := df } : Role).name
        = n := hrn
    have hpu : (fun x : Role => x.name == n)
        { r with permissions := pm, default := df } = true := by
      simpa using hun
    have huniq : ∀ y ∈ st.table, (y.name == n) = true →
        y.id = ({ r with permissions := pm, default := df } : Role).id := by
      intro y hy hyn
      have hyn' : y.name = n := by simpa using hyn
      have : y = r := List.inj_on_of_nodup_map hnames hy hrm
        (by rw [hyn', hrn])
      rw [this]
    rw [hstep]
    refine ⟨?_, hun, rfl, rfl, ?_, rfl, ?_, ?_, ?_, ?_, ?_, le_refl _⟩
    · exact find?_setFirst_self _ _ r _ hfind hpu
    · exact mem_setFirst_self _ _ _ (by rw [hfind]; rfl)
    · intro y hy
      rcases setFirst_mem_or _ _ _ y hy with h | h
      · exact hid y h
      · rw [h]
        exact hid r hrm
    · rw [map_setFirst_eq _ _ Role.id _ huniq]
      exact hids
    · rw [map_setFirst_eq _ _ Role.name _ (fun y hy hyn => by
        have : y = r := List.inj_on_of_nodup_map hnames hy hrm
          (by rw [(by simpa using hyn : y.name = n), hrn])
        rw [this])]
      exact hnames
    · intro m hm
      refine find?_setFirst_ne _ _ _ _ (fun y hy => ?_) ?_
      · have : y.name = n := by simpa using hy
        rw [this]
        exact beq_eq_false_iff_ne.mpr (Ne.symm hm)
      · rw [show ({ r with permissions := pm, default := df } : Role).name
            = n from hrn]
        exact beq_eq_false_iff_ne.mpr (Ne.symm hm)
    · intro y hy hyn
      exact mem_setFirst_of_not _ _ y _ (beq_eq_false_iff_ne.mpr hyn) hy
  | none =>
    have hnone : ∀ y ∈ st.table, (y.name == n) = false := by
      intro y hy
      have := List.find?_eq_none.mp hfind y hy
      simpa using this
    refine ⟨(⟨st.nextId, n, df, pm⟩ : Role), ?_⟩
    have hstep : update_roles_step st (n, pm, df)
        = { table := st.table ++ [(⟨st.nextId, n, df, pm⟩ : Role)],
            nextId := st.nextId + 1,
            mirror := blockChainPut st.mirror
              ("weibo.role." ++ strOfNat st.nextId)
              (⟨st.nextId, n, df, pm⟩ : Role).to_blockchain } := by
      unfold update_roles_step
      rw [hfind]
    rw [hstep]
    refine ⟨?_, rfl, rfl, rfl, ?_, rfl, ?_, ?_, ?_, ?_, ?_, Nat.le_succ _⟩
    · rw [List.find?_append, hfind]
      simp
    · exact List.mem_append_right _ (List.mem_singleton.mpr rfl)
    · intro y hy
      rcases List.mem_append.mp hy with h | h
      · exact Nat.lt_succ_of_lt (hid y h)
      · rw [List.mem_singleton.mp h]
        exact Nat.lt_succ_self _
    · have hmap : List.map Role.id
          (st.table ++ [(⟨st.nextId, n, df, pm⟩ : Role)])
          = (List.map Role.id st.table).concat st.nextId := by
        simp [List.concat_eq_append]
      rw [hmap]
      refine List.Nodup.concat ?_ hids
      intro hmem
      obtain ⟨y, hy, hyid⟩ := List.mem_map.mp hmem
      exact absurd hyid (Nat.ne_of_lt (hid y hy))
    · have hmap : List.map Role.name
          (st.table ++ [(⟨st.nextId, n, df, pm⟩ : Role)])
          = (List.map Role.name st.table).concat n := by
        simp [List.concat_eq_append]
      rw [hmap]
      refine List.Nodup.concat ?_ hnames
      intro hmem
      obtain ⟨y, hy, hyn⟩ := List.mem_map.mp hmem
      have := hnone y hy
      rw [hyn] at this
      simp at this
    · intro m hm
      rw [List.find?_append]
      have : List.find? (fun r => r.name == m)
          [(⟨st.nextId, n, df, pm⟩ : Role)] = none := by
        simp [List.find?, beq_eq_false_iff_ne.mpr (Ne.symm hm)]
      rw [this, Option.or_none]
    · intro y hy _
      exact List.mem_append_left _ hy

theorem update_roles_step_noop (st : RoleDB) (n : String) (pm : Nat)
    (df : Bool) (u : Role)
    (hfind : st.table.find? (fun r => r.name == n) = some u)
    (hperm : u.permissions = pm) (hdf : u.default = df) :
    (update_roles_step st (n, pm, df)).table = st.table ∧
    (update_roles_step st (n, pm, df)).nextId = st.nextId := by
  have hu : ({ u with permissions := pm, default := df } : Role) = u := by
    obtain ⟨a, b, c, d⟩ := u
    simp only at hperm hdf
    rw [← hperm, ← hdf]
  unfold update_roles_step
  rw [hfind]
  constructor
  · show setFirst (fun x => x.name == n)
      { u with permissions := pm, default := df } st.table = st.table
    rw [hu]
    exact setFirst_find?_eq_self _ _ _ hfind
  · rfl

/-! ## C8: update_roles reconciles the canonical roles idempotently -/

/-- C8: from any starting role table with unique names, fresh ids and
in-range ids, update_roles upserts by name the three canonical roles
with their fixed bitmasks (User 0x07 default, Moderator 0x0f,
Administrator 0xff), mirrors each upserted role to the ledger under its
own key, keeps role names duplicate-free, leaves the ordinary role as
the only default among the canonical three, and a second run leaves the
role table unchanged. -/
theorem c8_update_roles (st : RoleDB)
    (hid : ∀ r ∈ st.table, r.id < st.nextId)
    (hids : (st.table.map Role.id).Nodup)
    (hnames : (st.table.map Role.name).Nodup) :
    ∃ u1 u2 u3 : Role,
      (update_roles st).table.find? (fun r => r.name == "User")
        = some u1 ∧
      u1.permissions = 0x07 ∧ u1.default = true ∧
      (update_roles st).table.find? (fun r => r.name == "Moderator")
        = some u2 ∧
      u2.permissions = 0x0f ∧ u2.default = false ∧
      (update_roles st).table.find? (fun r => r.name == "Administrator")
        = some u3 ∧
      u3.permissions = 0xff ∧ u3.default = false ∧
      lookupKV (update_roles st).mirror ("weibo.role." ++ strOfNat u1.id)
        = some u1.to_blockchain ∧
      lookupKV (update_roles st).mirror ("weibo.role." ++ strOfNat u2.id)
        = some u2.to_blockchain ∧
      lookupKV (update_roles st).mirror ("weibo.role." ++ strOfNat u3.id)
        = some u3.to_blockchain ∧
      ((update_roles st).table.map Role.name).Nodup ∧
      (∀ r ∈ (update_roles st).table,
        r.name = "User" ∨ r.name = "Moderator" ∨ r.name = "Administrator" →
        (r.default = true ↔ r.name = "User")) ∧
      (update_roles st).table.countP
        (fun r => (r.name == "User" || r.name == "Moderator"
          || r.name == "Administrator") && r.default) = 1 ∧
      (update_roles (update_roles st)).table = (update_roles st).table := by
  have hrun : ∀ s : RoleDB, update_roles s
      = update_roles_step (update_roles_step (update_roles_step s
          ("User", 0x07, true)) ("Moderator", 0x0f, false))
        ("Administrator", 0xff, false) := fun s => rfl
  obtain ⟨u1, f1, n1, p1, d1, m1, mir1, bnd1, ids1, nms1, prs1, mmp1, le1⟩ :=
    update_roles_step_spec st "User" 0x07 true hid hids hnames
  obtain ⟨u2, f2, n2, p2, d2, m2, mir2, bnd2, ids2, nms2, prs2, mmp2, le2⟩ :=
    update_roles_step_spec (update_roles_step st ("User", 0x07, true))
      "Moderator" 0x0f false bnd1 ids1 nms1
  obtain ⟨u3, f3, n3, p3, d3, m3, mir3, bnd3, ids3, nms3, prs3, mmp3, le3⟩ :=
    update_roles_step_spec (update_roles_step (update_roles_step st
      ("User", 0x07, true)) ("Moderator", 0x0f, false))
      "Administrator" 0xff false bnd2 ids2 nms2
  have hu1s2 : u1 ∈ (update_roles_step (update_roles_step st
      ("User", 0x07, true)) ("Moderator", 0x0f, false)).table :=
    mmp2 u1 m1 (by rw [n1]; decide)
  have hu1s3 : u1 ∈ (update_roles_step (update_roles_step
      (update_roles_step st ("User", 0x07, true))
      ("Moderator", 0x0f, false)) ("Administrator", 0xff, false)).table :=
    mmp3 u1 hu1s2 (by rw [n1]; decide)
  have hu2s3 : u2 ∈ (update_roles_step (update_roles_step
      (update_roles_step st ("User", 0x07, true))
      ("Moderator", 0x0f, false)) ("Administrator", 0xff, false)).table :=
    mmp3 u2 m2 (by rw [n2]; decide)
  have hfU : (update_roles_step (update_roles_step (update_roles_step st
      ("User", 0x07, true)) ("Moderator", 0x0f, false))
      ("Administrator", 0xff, false)).table.find?
      (fun r => r.name == "User") = some u1 := by
    rw [prs3 "User" (by decide), prs2 "User" (by decide)]
    exact f1
  have hfM : (update_roles_step (update_roles_step (update_roles_step st
      ("User", 0x07, true)) ("Moderator", 0x0f, false))
      ("Administrator", 0xff, false)).table.find?
      (fun r => r.name == "Moderator") = some u2 := by
    rw [prs3 "Moderator" (by decide)]
    exact f2
  have hne12 : u1.id ≠ u2.id := by
    intro he
    have hq := List.inj_on_of_nodup_map ids2 hu1s2 m2 he
    have hc := n1
    rw [hq, n2] at hc
    exact absurd hc (by decide)
  have hne13 : u1.id ≠ u3.id := by
    intro he
    have hq := List.inj_on_of_nodup_map ids3 hu1s3 m3 he
    have hc := n1
    rw [hq, n3] at hc
    exact absurd hc (by decide)
  have hne23 : u2.id ≠ u3.id := by
    intro he
    have hq := List.inj_on_of_nodup_map ids3 hu2s3 m3 he
    have hc := n2
    rw [hq, n3] at hc
    exact absurd hc (by decide)
  have hm3 : lookupKV (update_roles_step (update_roles_step
      (update_roles_step st ("User", 0x07, true))
      ("Moderator", 0x0f, false)) ("Administrator", 0xff, false)).mirror
      ("weibo.role." ++ strOfNat u3.id) = some u3.to_blockchain := by
    rw [mir3]
    exact lookup_put_same _ _ _
  have hm2 : lookupKV (update_roles_step (update_roles_step
      (update_roles_step st ("User", 0x07, true))
      ("Moderator", 0x0f, false)) ("Administrator", 0xff, false)).mirror
      ("weibo.role." ++ strOfNat u2.id) = some u2.to_blockchain := by
    rw [mir3, lookup_put_ne _ _ _ _ (roleKey_inj _ _ hne23), mir2]
    exact lookup_put_same _ _ _
  have hm1 : lookupKV (update_roles_step (update_roles_step
      (update_roles_step st ("User", 0x07, true))
      ("Moderator", 0x0f, false)) ("Administrator", 0xff, false)).mirror
      ("weibo.role." ++ strOfNat u1.id) = some u1.to_blockchain := by
    rw [mir3, lookup_put_ne _ _ _ _ (roleKey_inj _ _ hne13), mir2,
      lookup_put_ne _ _ _ _ (roleKey_inj _ _ hne12), mir1]
    exact lookup_put_same _ _ _
  have hcanon : ∀ r ∈ (update_roles_step (update_roles_step
      (update_roles_step st ("User", 0x07, true))
      ("Moderator", 0x0f, false)) ("Administrator", 0xff, false)).table,
      r.name = "User" ∨ r.name = "Moderator" ∨ r.name = "Administrator" →
      (r.default = true ↔ r.name = "User") := by
    intro r hr hc
    rcases hc with h | h | h
    · have hq : r = u1 :=
        List.inj_on_of_nodup_map nms3 hr hu1s3 (by rw [h, n1])
      rw [hq, n1, d1]
      simp
    · have hq : r = u2 :=
        List.inj_on_of_nodup_map nms3 hr hu2s3 (by rw [h, n2])
      rw [hq, n2, d2]
      simp
    · have hq : r = u3 :=
        List.inj_on_of_nodup_map nms3 hr m3 (by rw [h, n3])
      rw [hq, n3, d3]
      simp
  have hcnt : (update_roles_step (update_roles_step (update_roles_step st
      ("User", 0x07, true)) ("Moderator", 0x0f, false))
      ("Administrator", 0xff, false)).table.countP
      (fun r => (r.name == "User" || r.name == "Moderator"
        || r.name == "Administrator") && r.default) = 1 := by
    have hpt : ∀ x ∈ (update_roles_step (update_roles_step
        (update_roles_step st ("User", 0x07, true))
        ("Moderator", 0x0f, false))
        ("Administrator", 0xff, false)).table,
        ((x.name == "User" || x.name == "Moderator"
          || x.name == "Administrator") && x.default) = true
          ↔ (x.name == "User") = true := by
      intro x hx
      by_cases hU : x.name = "User"
      · have hq : x = u1 :=
          List.inj_on_of_nodup_map nms3 hx hu1s3 (by rw [hU, n1])
        rw [hq, n1, d1]
        simp
      · by_cases hM : x.name = "Moderator"
        · have hq : x = u2 :=
            List.inj_on_of_nodup_map nms3 hx hu2s3 (by rw [hM, n2])
          rw [hq, n2, d2]
          simp
        · by_cases hA : x.name = "Administrator"
          · have hq : x = u3 :=
              List.inj_on_of_nodup_map nms3 hx m3 (by rw [hA, n3])
            rw [hq, n3, d3]
            simp
          · have hbU : (x.name == "User") = false :=
              beq_eq_false_iff_ne.mpr hU
            have hbM : (x.name == "Moderator") = false :=
              beq_eq_false_iff_ne.mpr hM
            have hbA : (x.name == "Administrator") = false :=
              beq_eq_false_iff_ne.mpr hA
            simp [hbU, hbM, hbA]
    rw [List.countP_congr hpt]
    have hmap : (update_roles_step (update_roles_step (update_roles_step st
        ("User", 0x07, true)) ("Moderator", 0x0f, false))
        ("Administrator", 0xff, false)).table.countP
        (fun r => r.name == "User")
        = ((update_roles_step (update_roles_step (update_roles_step st
          ("User", 0x07, true)) ("Moderator", 0x0f, false))
          ("Administrator", 0xff, false)).table.map Role.name).countP
          (fun s => s == "User") := by
      rw [List.countP_map]
      rfl
    rw [hmap]
    have hmem : "User" ∈ (update_roles_step (update_roles_step
        (update_roles_step st ("User", 0x07, true))
        ("Moderator", 0x0f, false))
        ("Administrator", 0xff, false)).table.map Role.name := by
      have := List.mem_map_of_mem Role.name hu1s3
      rw [n1] at this
      exact this
    have := List.count_eq_one_of_mem nms3 hmem
    rw [← this]
    rfl
  have hid1 := update_roles_step_noop (update_roles_step (update_roles_step
    (update_roles_step st ("User", 0x07, true)) ("Moderator", 0x0f, false))
    ("Administrator", 0xff, false)) "User" 0x07 true u1 hfU p1 d1
  have hfM2 : (update_roles_step (update_roles_step (update_roles_step
      (update_roles_step st ("User", 0x07, true))
      ("Moderator", 0x0f, false)) ("Administrator", 0xff, false))
      ("User", 0x07, true)).table.find?
      (fun r => r.name == "Moderator") = some u2 := by
    rw [hid1.1]
    exact hfM
  have hid2 := update_roles_step_noop (update_roles_step
    (update_roles_step (update_roles_step (update_roles_step st
      ("User", 0x07, true)) ("Moderator", 0x0f, false))
      ("Administrator", 0xff, false)) ("User", 0x07, true))
    "Moderator" 0x0f false u2 hfM2 p2 d2
  have hfA2 : (update_roles_step (update_roles_step (update_roles_step
      (update_roles_step (update_roles_step st ("User", 0x07, true))
      ("Moderator", 0x0f, false)) ("Administrator", 0xff, false))
      ("User", 0x07, true)) ("Moderator", 0x0f, false)).table.find?
      (fun r => r.name == "Administrator") = some u3 := by
    rw [hid2.1, hid1.1]
    exact f3
  have hid3 := update_roles_step_noop (update_roles_step
    (update_roles_step (update_roles_step (update_roles_step
      (update_roles_step st ("User", 0x07, true))
      ("Moderator", 0x0f, false)) ("Administrator", 0xff, false))
      ("User", 0x07, true)) ("Moderator", 0x0f, false))
    "Administrator" 0xff false u3 hfA2 p3 d3
  refine ⟨u1, u2, u3, ?_⟩
  rw [hrun st]
  refine ⟨hfU, p1, d1, hfM, p2, d2, f3, p3, d3, hm1, hm2, hm3, nms3,
    hcanon, hcnt, ?_⟩
  rw [hrun]
  rw [hid3.1, hid2.1, hid1.1]

/-- Witness for C8: from an empty role table the run creates exactly the
three canonical roles in order, and a second run changes nothing. -/
theorem c8_witness :
    ((update_roles ⟨[], 1, []⟩).table.map
      (fun r => (r.name, r.permissions, r.default)))
      = [("User", 0x07, true), ("Moderator", 0x0f, false),
         ("Administrator", 0xff, false)] ∧
    (update_roles (update_roles ⟨[], 1, []⟩)).table
      = (update_roles ⟨[], 1, []⟩).table := by
  have h := c8_update_roles ⟨[], 1, []⟩ (by simp) (by simp) (by simp)
  obtain ⟨u1, u2, u3, a1, a2, a3, a4, a5, a6, a7, a8, a9, a10, a11, a12,
    a13, a14, hidem⟩ := h
  exact ⟨by decide, hidem.2⟩

/-! ## Known-answer checks of the embedded MD5 -/

set_option maxRecDepth 100000 in
theorem md5_known_answer_empty :
    MD5.md5hex [] = "d41d8cd98f00b204e9800998ecf8427e" := by decide

set_option maxRecDepth 100000 in
theorem md5_known_answer_abc :
    email_md5 "abc" = "900150983cd24fb0d6963f7d28e17f72" := by decide
